import Mathlib

/-!
Verification of the core state machine of `the_snake.py`, a grid-based snake
game.  Positions are stored in pixels, as in the source: a board cell is a
pair of pixel coordinates, each a multiple of `GRID_SIZE`.  The snake moves by
pixel steps of `GRID_SIZE`, wrapping with Python's `%` (Euclidean remainder,
modelled by `Int.emod`).  Apple placement is rejection sampling; we model its
postcondition as a relation and its loop as a run over a stream of samples.
The main loop's per-frame update is modelled by the relation `tickRel`.
-/

/-- Screen width in pixels (source constant `SCREEN_WIDTH = 640`). -/
def SCREEN_WIDTH : Int := 640

/-- Screen height in pixels (source constant `SCREEN_HEIGHT = 480`). -/
def SCREEN_HEIGHT : Int := 480

/-- Side of one grid cell in pixels (source constant `GRID_SIZE = 20`). -/
def GRID_SIZE : Int := 20

/-- Board width in cells (source `GRID_WIDTH = SCREEN_WIDTH // GRID_SIZE`). -/
def GRID_WIDTH : Int := SCREEN_WIDTH / GRID_SIZE

/-- Board height in cells (source `GRID_HEIGHT = SCREEN_HEIGHT // GRID_SIZE`). -/
def GRID_HEIGHT : Int := SCREEN_HEIGHT / GRID_SIZE

/-- A position: a pair of pixel coordinates, as the source's `(x, y)` tuples. -/
abbrev Cell := Int × Int

/-- Source constant `UP = (0, -1)`. -/
def UP : Cell := (0, -1)

/-- Source constant `DOWN = (0, 1)`. -/
def DOWN : Cell := (0, 1)

/-- Source constant `LEFT = (-1, 0)`. -/
def LEFT : Cell := (-1, 0)

/-- Source constant `RIGHT = (1, 0)`. -/
def RIGHT : Cell := (1, 0)

/-- The four directions deliverable by `handle_keys` (its `key_direction_map`). -/
def keyDirs : List Cell := [UP, DOWN, LEFT, RIGHT]

/-- The `opposite_directions` dictionary of `Snake.update_direction`;
`.get` on a key outside the dictionary returns `None`, hence `Option`. -/
def oppositeDirections (d : Cell) : Option Cell :=
  if d = UP then some DOWN
  else if d = DOWN then some UP
  else if d = LEFT then some RIGHT
  else if d = RIGHT then some LEFT
  else none

/-- Default position of `GameObject.__init__`:
`(SCREEN_WIDTH // 2, SCREEN_HEIGHT // 2)`. -/
def centerPosition : Cell := (SCREEN_WIDTH / 2, SCREEN_HEIGHT / 2)

/-- State of the `Snake` object: the inherited `GameObject.position` (used to
re-seed the body on reset), `length`, `positions` (head first), `direction`,
and `last` (the popped tail cell, or `None`). -/
structure Snake where
  position : Cell
  length : Nat
  positions : List Cell
  direction : Cell
  last : Option Cell
deriving DecidableEq

/-- `Snake.get_head_position`: returns `positions[0]`. -/
def Snake.get_head_position (s : Snake) : Cell :=
  s.positions.headI

/-- The new head computed inside `Snake.move`:
`((head_x + dir_x * GRID_SIZE) % SCREEN_WIDTH,
  (head_y + dir_y * GRID_SIZE) % SCREEN_HEIGHT)`. -/
def Snake.newHead (s : Snake) : Cell :=
  ((s.get_head_position.1 + s.direction.1 * GRID_SIZE) % SCREEN_WIDTH,
   (s.get_head_position.2 + s.direction.2 * GRID_SIZE) % SCREEN_HEIGHT)

/-- `Snake.move`: inserts the new head at index 0, then pops the last element
into `self.last` when `len(self.positions) > self.length`, else sets
`self.last = None`. -/
def Snake.move (s : Snake) : Snake :=
  if (s.newHead :: s.positions).length > s.length then
    { s with positions := (s.newHead :: s.positions).dropLast,
             last := (s.newHead :: s.positions).getLast? }
  else
    { s with positions := s.newHead :: s.positions, last := none }

/-- `Snake.update_direction`: when a direction is supplied and it differs from
`opposite_directions.get(self.direction)`, the direction is replaced. -/
def Snake.update_direction (s : Snake) (next_direction : Option Cell) : Snake :=
  match next_direction with
  | none => s
  | some nd =>
      if oppositeDirections s.direction ≠ some nd then
        { s with direction := nd }
      else s

/-- `Snake.reset`: `length = 1`, `positions = [self.position]`,
`direction = RIGHT`, `last = None`. -/
def Snake.reset (s : Snake) : Snake :=
  { s with length := 1, positions := [s.position], direction := RIGHT,
           last := none }

/-- The snake constructed by `Snake()` in `main`: `GameObject.__init__` stores
the center position, then `reset()` runs. -/
def initSnake : Snake :=
  Snake.reset
    { position := centerPosition, length := 0, positions := [],
      direction := RIGHT, last := none }

/-- A cell producible by the apple sampler: `randint(0, GRID_WIDTH - 1) *
GRID_SIZE` for x and `randint(0, GRID_HEIGHT - 1) * GRID_SIZE` for y, i.e. a
grid-aligned on-screen pixel pair. -/
def isBoardCell (c : Cell) : Bool :=
  decide (0 ≤ c.1) && decide (c.1 < SCREEN_WIDTH) && decide (c.1 % GRID_SIZE = 0) &&
  decide (0 ≤ c.2) && decide (c.2 < SCREEN_HEIGHT) && decide (c.2 % GRID_SIZE = 0)

/-- Break condition of the sampling loop in `Apple.randomize_position`:
`not occupied_positions or self.position not in occupied_positions`. -/
def breakCond (occupied : List Cell) (p : Cell) : Bool :=
  occupied.isEmpty || !(occupied.contains p)

/-- Postcondition of `Apple.randomize_position(occupied)`: the stored position
is a sampled board cell satisfying the loop's break condition. -/
def randomizeSpec (occupied : List Cell) (p : Cell) : Prop :=
  isBoardCell p = true ∧ breakCond occupied p = true

/-- The sampling loop of `Apple.randomize_position` run on an explicit list of
sampled cells: the result is the first sample meeting the break condition. -/
def randomizeRun (occupied : List Cell) : List Cell → Option Cell
  | [] => none
  | p :: rest =>
      if breakCond occupied p then some p else randomizeRun occupied rest

/-- Pixel cell of a cell index pair, the apple sampler's value at one draw. -/
def cellOfPair (p : Nat × Nat) : Cell :=
  ((p.1 : Int) * GRID_SIZE, (p.2 : Int) * GRID_SIZE)

/-- All board cells, as a finite set (the apple sampler's sample space). -/
def boardFinset : Finset Cell :=
  (Finset.range 32 ×ˢ Finset.range 24).image cellOfPair

/-- Joint state of the two game objects in `main`. -/
structure GameState where
  snake : Snake
  apple : Cell
deriving DecidableEq

/-- Effect of `handle_keys` on the snake: each direction key event calls
`update_direction` immediately, in arrival order. -/
def applyInputs (s : Snake) (inputs : List Cell) : Snake :=
  inputs.foldl (fun sn d => sn.update_direction (some d)) s

/-- The snake after input handling and `snake.move()` within one frame. -/
def movedSnake (g : GameState) (inputs : List Cell) : Snake :=
  (applyInputs g.snake inputs).move

/-- One iteration of the `while True` loop in `main`: `handle_keys` (inputs are
direction-key values), `snake.move()`, then the `if / elif` on consumption and
self-collision, the apple re-placed nondeterministically per `randomizeSpec`. -/
def tickRel (inputs : List Cell) (g g' : GameState) : Prop :=
  (∀ d ∈ inputs, d ∈ keyDirs) ∧
  (if (movedSnake g inputs).get_head_position = g.apple then
    ∃ p, randomizeSpec (movedSnake g inputs).positions p ∧
      g' = ⟨{ movedSnake g inputs with length := (movedSnake g inputs).length + 1 }, p⟩
  else if (movedSnake g inputs).get_head_position ∈ (movedSnake g inputs).positions.tail then
    ∃ p, randomizeSpec ((movedSnake g inputs).reset).positions p ∧
      g' = ⟨(movedSnake g inputs).reset, p⟩
  else g' = ⟨movedSnake g inputs, g.apple⟩)

/-- Initial state built in `main`: `snake = Snake()` and
`apple = Apple(occupied_positions=snake.positions)`. -/
def initSpec (g : GameState) : Prop :=
  g.snake = initSnake ∧ randomizeSpec initSnake.positions g.apple

/-- States reachable in `main`: the initial state and everything the loop
produces from it. -/
inductive Reachable : GameState → Prop
  | init : ∀ g, initSpec g → Reachable g
  | step : ∀ g inputs g', Reachable g → tickRel inputs g g' → Reachable g'

/-- Converts a cell index pair to the pixel position of that cell. -/
def cellToPix (c : Cell) : Cell := (c.1 * GRID_SIZE, c.2 * GRID_SIZE)

/-- Invariant carried by every state `main` can reach: the snake's base
position stays at the screen center, the body is a nonempty list of board
cells, the heading is one of the four key directions, and the apple sits on a
board cell outside the body. -/
structure StateInv (g : GameState) : Prop where
  pos_center : g.snake.position = centerPosition
  len_pos : 1 ≤ g.snake.length
  body_ne : g.snake.positions ≠ []
  dir_mem : g.snake.direction ∈ keyDirs
  body_cells : ∀ c ∈ g.snake.positions, isBoardCell c = true
  apple_cell : isBoardCell g.apple = true
  apple_free : g.apple ∉ g.snake.positions

/-- An initial state of `main` whose apple landed on `(0, 0)`. -/
def stateA : GameState := ⟨initSnake, (0, 0)⟩

/-- Result of one frame from `stateA` with key events UP then LEFT. -/
def stateB : GameState :=
  ⟨⟨centerPosition, 1, [(300, 240)], LEFT, some (320, 240)⟩, (0, 0)⟩

/-- An initial state of `main` whose apple landed just right of the snake. -/
def stateC : GameState := ⟨initSnake, (340, 240)⟩

/-- Result of one frame from `stateC` with no key events: consumption. -/
def stateD : GameState :=
  ⟨⟨centerPosition, 2, [(340, 240)], RIGHT, some (320, 240)⟩, (360, 240)⟩

/-- Result of one frame from `stateD` with no key events: consumption again. -/
def stateE : GameState :=
  ⟨⟨centerPosition, 3, [(360, 240), (340, 240)], RIGHT, none⟩, (0, 0)⟩

/-- Result of one frame from `stateE` with no key events: a plain move. -/
def stateF : GameState :=
  ⟨⟨centerPosition, 3, [(380, 240), (360, 240), (340, 240)], RIGHT, none⟩, (0, 0)⟩

/-- Result of one frame from `stateF` with key events UP then LEFT: the snake
reverses onto its own neck and resets. -/
def stateG : GameState :=
  ⟨⟨centerPosition, 1, [(320, 240)], RIGHT, none⟩, (40, 40)⟩

/-- A snake whose head sits in the last cell of the top row, heading RIGHT. -/
def c1snake : Snake := ⟨centerPosition, 1, [(620, 240)], RIGHT, none⟩

/-- The snake of the spec scenario: body cells (5,5), (4,5), (3,5) in pixels,
heading RIGHT, at its target length. -/
def c2snake : Snake :=
  ⟨centerPosition, 3, [(100, 100), (80, 100), (60, 100)], RIGHT, none⟩

/-- A sample stream that enumerates the whole board: models a run of the
random generator in which every cell eventually comes up. -/
def sampleStream (n : Nat) : Cell := cellOfPair (n % 32, n / 32 % 24)

example : initSnake = ⟨(320, 240), 1, [(320, 240)], (1, 0), none⟩ := by decide

example :
    (Snake.move ⟨(320, 240), 3, [(100, 100), (80, 100), (60, 100)], RIGHT, none⟩) =
      ⟨(320, 240), 3, [(120, 100), (100, 100), (80, 100)], RIGHT, some (60, 100)⟩ := by
  decide

theorem headI_mem_self (l : List Cell) (h : l ≠ []) : l.headI ∈ l := by
  cases l with
  | nil => exact absurd rfl h
  | cons a t => exact List.mem_cons_self a t

theorem update_direction_fields (s : Snake) (od : Option Cell) :
    (s.update_direction od).position = s.position ∧
    (s.update_direction od).length = s.length ∧
    (s.update_direction od).positions = s.positions ∧
    (s.update_direction od).last = s.last := by
  cases od with
  | none => exact ⟨rfl, rfl, rfl, rfl⟩
  | some d =>
      simp only [Snake.update_direction]
      split <;> exact ⟨rfl, rfl, rfl, rfl⟩

theorem update_direction_dir_mem (s : Snake) (d : Cell)
    (hs : s.direction ∈ keyDirs) (hd : d ∈ keyDirs) :
    (s.update_direction (some d)).direction ∈ keyDirs := by
  simp only [Snake.update_direction]
  split
  · exact hd
  · exact hs

theorem update_direction_ne_opposite (s : Snake) (d x : Cell)
    (hx : oppositeDirections s.direction = some x) (hcur : s.direction ≠ x) :
    (s.update_direction (some d)).direction ≠ x := by
  simp only [Snake.update_direction]
  split
  · rename_i hguard
    intro hc
    subst hc
    exact hguard hx
  · exact hcur

theorem applyInputs_cons (s : Snake) (a : Cell) (t : List Cell) :
    applyInputs s (a :: t) = applyInputs (s.update_direction (some a)) t := rfl

theorem applyInputs_fields (s : Snake) (inputs : List Cell) :
    (applyInputs s inputs).position = s.position ∧
    (applyInputs s inputs).length = s.length ∧
    (applyInputs s inputs).positions = s.positions ∧
    (applyInputs s inputs).last = s.last := by
  induction inputs generalizing s with
  | nil => exact ⟨rfl, rfl, rfl, rfl⟩
  | cons a t ih =>
      rw [applyInputs_cons]
      obtain ⟨h1, h2, h3, h4⟩ := ih (s.update_direction (some a))
      obtain ⟨g1, g2, g3, g4⟩ := update_direction_fields s (some a)
      exact ⟨h1.trans g1, h2.trans g2, h3.trans g3, h4.trans g4⟩

theorem applyInputs_dir_mem (s : Snake) (inputs : List Cell)
    (hs : s.direction ∈ keyDirs) (hi : ∀ d ∈ inputs, d ∈ keyDirs) :
    (applyInputs s inputs).direction ∈ keyDirs := by
  induction inputs generalizing s with
  | nil => exact hs
  | cons a t ih =>
      rw [applyInputs_cons]
      exact ih _ (update_direction_dir_mem s a hs (hi a (List.mem_cons_self a t)))
        (fun d hd => hi d (List.mem_cons_of_mem a hd))

theorem move_length (s : Snake) : (s.move).length = s.length := by
  unfold Snake.move
  split <;> rfl

theorem move_direction (s : Snake) : (s.move).direction = s.direction := by
  unfold Snake.move
  split <;> rfl

theorem move_base_position (s : Snake) : (s.move).position = s.position := by
  unfold Snake.move
  split <;> rfl

theorem move_pop (s : Snake) (hne : s.positions ≠ [])
    (hc : s.positions.length + 1 > s.length) :
    (s.move).positions = s.newHead :: s.positions.dropLast ∧
    (s.move).last = s.positions.getLast? := by
  obtain ⟨pos, len, ps, dir, lst⟩ := s
  cases ps with
  | nil => exact absurd rfl hne
  | cons o os =>
      unfold Snake.move
      rw [if_pos (by simpa using hc)]
      exact ⟨by simp, by simp [List.getLast?_cons_cons]⟩

theorem move_nopop (s : Snake) (hc : ¬ s.positions.length + 1 > s.length) :
    (s.move).positions = s.newHead :: s.positions ∧ (s.move).last = none := by
  unfold Snake.move
  rw [if_neg (by simpa using hc)]
  exact ⟨rfl, rfl⟩

theorem move_head (s : Snake) (hne : s.positions ≠ []) :
    (s.move).get_head_position = s.newHead := by
  by_cases hc : s.positions.length + 1 > s.length
  · rw [Snake.get_head_position, (move_pop s hne hc).1]
    rfl
  · rw [Snake.get_head_position, (move_nopop s hc).1]
    rfl

theorem move_ne_nil (s : Snake) (hne : s.positions ≠ []) :
    (s.move).positions ≠ [] := by
  by_cases hc : s.positions.length + 1 > s.length
  · rw [(move_pop s hne hc).1]
    exact List.cons_ne_nil _ _
  · rw [(move_nopop s hc).1]
    exact List.cons_ne_nil _ _

theorem move_mem (s : Snake) (x : Cell) (hx : x ∈ (s.move).positions) :
    x = s.newHead ∨ x ∈ s.positions := by
  unfold Snake.move at hx
  split at hx
  · simp only at hx
    rcases List.mem_cons.mp ((List.dropLast_sublist _).subset hx) with h | h
    · exact Or.inl h
    · exact Or.inr h
  · rcases List.mem_cons.mp hx with h | h
    · exact Or.inl h
    · exact Or.inr h

theorem wrap_step (x d m : Int) (hm : 0 < m) (hdvd : GRID_SIZE ∣ m)
    (h2 : x % GRID_SIZE = 0) :
    0 ≤ (x + d * GRID_SIZE) % m ∧ (x + d * GRID_SIZE) % m < m ∧
    (x + d * GRID_SIZE) % m % GRID_SIZE = 0 := by
  refine ⟨Int.emod_nonneg _ (by omega), Int.emod_lt_of_pos _ hm, ?_⟩
  rw [Int.emod_emod_of_dvd _ hdvd, Int.add_mul_emod_self]
  exact h2

theorem newHead_isBoardCell (s : Snake) (h : isBoardCell s.get_head_position = true) :
    isBoardCell s.newHead = true := by
  unfold isBoardCell at h ⊢
  simp only [Bool.and_eq_true, decide_eq_true_eq] at h ⊢
  obtain ⟨⟨⟨⟨⟨h1, h2⟩, h3⟩, h4⟩, h5⟩, h6⟩ := h
  have hx := wrap_step s.get_head_position.1 s.direction.1 SCREEN_WIDTH (by decide)
    ⟨32, by decide⟩ h3
  have hy := wrap_step s.get_head_position.2 s.direction.2 SCREEN_HEIGHT (by decide)
    ⟨24, by decide⟩ h6
  exact ⟨⟨⟨⟨⟨hx.1, hx.2.1⟩, hx.2.2⟩, hy.1⟩, hy.2.1⟩, hy.2.2⟩

theorem breakCond_of_not_mem (occupied : List Cell) (p : Cell)
    (h : p ∉ occupied) : breakCond occupied p = true := by
  unfold breakCond
  simp [h]

theorem breakCond_not_mem (occupied : List Cell) (p : Cell) (hne : occupied ≠ [])
    (h : breakCond occupied p = true) : p ∉ occupied := by
  unfold breakCond at h
  rcases Bool.or_eq_true_iff.mp h with h1 | h2
  · exact absurd (List.isEmpty_iff.mp h1) hne
  · simpa using h2

theorem movedSnake_fields (g : GameState) (inputs : List Cell) :
    (movedSnake g inputs).position = g.snake.position ∧
    (movedSnake g inputs).length = g.snake.length := by
  unfold movedSnake
  rw [move_base_position, move_length]
  exact ⟨(applyInputs_fields _ _).1, (applyInputs_fields _ _).2.1⟩

theorem movedSnake_dir_mem (g : GameState) (inputs : List Cell)
    (hs : g.snake.direction ∈ keyDirs) (hi : ∀ d ∈ inputs, d ∈ keyDirs) :
    (movedSnake g inputs).direction ∈ keyDirs := by
  unfold movedSnake
  rw [move_direction]
  exact applyInputs_dir_mem _ _ hs hi

theorem movedSnake_ne_nil (g : GameState) (inputs : List Cell)
    (hne : g.snake.positions ≠ []) : (movedSnake g inputs).positions ≠ [] := by
  unfold movedSnake
  apply move_ne_nil
  rw [(applyInputs_fields _ _).2.2.1]
  exact hne

theorem movedSnake_head (g : GameState) (inputs : List Cell)
    (hne : g.snake.positions ≠ []) :
    (movedSnake g inputs).get_head_position = (applyInputs g.snake inputs).newHead := by
  unfold movedSnake
  apply move_head
  rw [(applyInputs_fields _ _).2.2.1]
  exact hne

theorem movedSnake_mem (g : GameState) (inputs : List Cell) (x : Cell)
    (hx : x ∈ (movedSnake g inputs).positions) :
    x = (applyInputs g.snake inputs).newHead ∨ x ∈ g.snake.positions := by
  rcases move_mem _ x hx with h | h
  · exact Or.inl h
  · rw [(applyInputs_fields _ _).2.2.1] at h
    exact Or.inr h

theorem movedSnake_cells (g : GameState) (inputs : List Cell)
    (hne : g.snake.positions ≠ [])
    (hcells : ∀ c ∈ g.snake.positions, isBoardCell c = true) :
    ∀ c ∈ (movedSnake g inputs).positions, isBoardCell c = true := by
  intro c hc
  rcases movedSnake_mem g inputs c hc with h | h
  · subst h
    apply newHead_isBoardCell
    rw [Snake.get_head_position, (applyInputs_fields _ _).2.2.1]
    exact hcells _ (headI_mem_self _ hne)
  · exact hcells c h

theorem stateInv_init (g : GameState) (h : initSpec g) : StateInv g := by
  obtain ⟨hs, hb, hbc⟩ := h
  refine ⟨?_, ?_, ?_, ?_, ?_, hb, ?_⟩
  · rw [hs]; rfl
  · rw [hs]; decide
  · rw [hs]; decide
  · rw [hs]; decide
  · rw [hs]; decide
  · rw [hs]; exact breakCond_not_mem _ _ (by decide) hbc

theorem stateInv_step (g : GameState) (inputs : List Cell) (g' : GameState)
    (hg : StateInv g) (h : tickRel inputs g g') : StateInv g' := by
  obtain ⟨hin, hbr⟩ := h
  have hfields := movedSnake_fields g inputs
  have hs2ne : (movedSnake g inputs).positions ≠ [] :=
    movedSnake_ne_nil g inputs hg.body_ne
  have hs2dir : (movedSnake g inputs).direction ∈ keyDirs :=
    movedSnake_dir_mem g inputs hg.dir_mem hin
  have hs2cells : ∀ c ∈ (movedSnake g inputs).positions, isBoardCell c = true :=
    movedSnake_cells g inputs hg.body_ne hg.body_cells
  by_cases hc : (movedSnake g inputs).get_head_position = g.apple
  · rw [if_pos hc] at hbr
    obtain ⟨p, ⟨hpb, hpbc⟩, rfl⟩ := hbr
    exact ⟨hfields.1.trans hg.pos_center, Nat.le_add_left 1 _, hs2ne, hs2dir,
      hs2cells, hpb, breakCond_not_mem _ _ hs2ne hpbc⟩
  · rw [if_neg hc] at hbr
    by_cases hcol : (movedSnake g inputs).get_head_position ∈ (movedSnake g inputs).positions.tail
    · rw [if_pos hcol] at hbr
      obtain ⟨p, ⟨hpb, hpbc⟩, rfl⟩ := hbr
      have hcenter : (movedSnake g inputs).position = centerPosition :=
        hfields.1.trans hg.pos_center
      refine ⟨hcenter, le_refl 1, by simp [Snake.reset], ?_, ?_, hpb, ?_⟩
      · show RIGHT ∈ keyDirs
        decide
      · intro c hcmem
        simp only [Snake.reset, List.mem_singleton] at hcmem
        rw [hcmem, hcenter]
        decide
      · exact breakCond_not_mem _ _ (by simp [Snake.reset]) hpbc
    · rw [if_neg hcol] at hbr
      subst hbr
      refine ⟨hfields.1.trans hg.pos_center, hfields.2 ▸ hg.len_pos, hs2ne,
        hs2dir, hs2cells, hg.apple_cell, ?_⟩
      intro hmem
      rcases movedSnake_mem g inputs _ hmem with heq | hold
      · apply hc
        rw [movedSnake_head g inputs hg.body_ne]
        exact heq.symm
      · exact hg.apple_free hold

theorem reachable_inv (g : GameState) (hg : Reachable g) : StateInv g := by
  induction hg with
  | init g h => exact stateInv_init g h
  | step g inputs g' hr htick ih => exact stateInv_step g inputs g' ih htick

theorem initSpec_stateA : initSpec stateA := ⟨rfl, by decide, by decide⟩

theorem initSpec_stateC : initSpec stateC := ⟨rfl, by decide, by decide⟩

theorem tick_CD : tickRel [] stateC stateD := by
  refine ⟨by decide, ?_⟩
  rw [if_pos (show (movedSnake stateC []).get_head_position = stateC.apple from by decide)]
  exact ⟨(360, 240), ⟨by decide, by decide⟩, by decide⟩

theorem tick_DE : tickRel [] stateD stateE := by
  refine ⟨by decide, ?_⟩
  rw [if_pos (show (movedSnake stateD []).get_head_position = stateD.apple from by decide)]
  exact ⟨(0, 0), ⟨by decide, by decide⟩, by decide⟩

theorem tick_EF : tickRel [] stateE stateF := by
  refine ⟨by decide, ?_⟩
  rw [if_neg (show ¬ (movedSnake stateE []).get_head_position = stateE.apple from by decide),
    if_neg (show ¬ (movedSnake stateE []).get_head_position ∈ (movedSnake stateE []).positions.tail from by decide)]
  decide

theorem tick_FG : tickRel [UP, LEFT] stateF stateG := by
  refine ⟨by decide, ?_⟩
  rw [if_neg (show ¬ (movedSnake stateF [UP, LEFT]).get_head_position = stateF.apple from by decide),
    if_pos (show (movedSnake stateF [UP, LEFT]).get_head_position ∈ (movedSnake stateF [UP, LEFT]).positions.tail from by decide)]
  exact ⟨(40, 40), ⟨by decide, by decide⟩, by decide⟩

theorem tick_AB : tickRel [UP, LEFT] stateA stateB := by
  refine ⟨by decide, ?_⟩
  rw [if_neg (show ¬ (movedSnake stateA [UP, LEFT]).get_head_position = stateA.apple from by decide),
    if_neg (show ¬ (movedSnake stateA [UP, LEFT]).get_head_position ∈ (movedSnake stateA [UP, LEFT]).positions.tail from by decide)]
  decide

theorem reach_stateA : Reachable stateA := Reachable.init stateA initSpec_stateA

theorem reach_stateC : Reachable stateC := Reachable.init stateC initSpec_stateC

theorem reach_stateF : Reachable stateF :=
  Reachable.step stateE [] stateF
    (Reachable.step stateD [] stateE
      (Reachable.step stateC [] stateD reach_stateC tick_CD) tick_DE) tick_EF

theorem cell_wrap (a d w : Int) :
    (a * GRID_SIZE + d * GRID_SIZE) % (w * GRID_SIZE) = ((a + d) % w) * GRID_SIZE := by
  rw [show a * GRID_SIZE + d * GRID_SIZE = GRID_SIZE * (a + d) from by ring,
      show w * GRID_SIZE = GRID_SIZE * w from by ring,
      Int.mul_emod_mul_of_pos _ _ (show (0 : Int) < GRID_SIZE from by decide)]
  ring

/-- Claim C1: every `Snake.move` computes the new head by adding the heading
to the head cell modulo the board dimensions, so the new head's cell
coordinates stay within `[0, GRID_WIDTH) × [0, GRID_HEIGHT)`; in particular a
head in the rightmost column moving RIGHT wraps to column 0. -/
theorem advance_wraps (s : Snake) (cx cy : Int)
    (hne : s.positions ≠ [])
    (_hd : s.direction ∈ keyDirs)
    (hh : s.get_head_position = (cx * GRID_SIZE, cy * GRID_SIZE)) :
    (s.move).get_head_position =
      (((cx + s.direction.1) % GRID_WIDTH) * GRID_SIZE,
       ((cy + s.direction.2) % GRID_HEIGHT) * GRID_SIZE) ∧
    0 ≤ (cx + s.direction.1) % GRID_WIDTH ∧
    (cx + s.direction.1) % GRID_WIDTH < GRID_WIDTH ∧
    0 ≤ (cy + s.direction.2) % GRID_HEIGHT ∧
    (cy + s.direction.2) % GRID_HEIGHT < GRID_HEIGHT ∧
    (cx = GRID_WIDTH - 1 → s.direction = RIGHT → (cx + s.direction.1) % GRID_WIDTH = 0) := by
  refine ⟨?_, Int.emod_nonneg _ (by decide), Int.emod_lt_of_pos _ (by decide),
    Int.emod_nonneg _ (by decide), Int.emod_lt_of_pos _ (by decide), ?_⟩
  · have e1 : (cx * GRID_SIZE + s.direction.1 * GRID_SIZE) % SCREEN_WIDTH
        = ((cx + s.direction.1) % GRID_WIDTH) * GRID_SIZE := by
      rw [show SCREEN_WIDTH = GRID_WIDTH * GRID_SIZE from by decide]
      exact cell_wrap cx s.direction.1 GRID_WIDTH
    have e2 : (cy * GRID_SIZE + s.direction.2 * GRID_SIZE) % SCREEN_HEIGHT
        = ((cy + s.direction.2) % GRID_HEIGHT) * GRID_SIZE := by
      rw [show SCREEN_HEIGHT = GRID_HEIGHT * GRID_SIZE from by decide]
      exact cell_wrap cy s.direction.2 GRID_HEIGHT
    rw [move_head s hne]
    simp only [Snake.newHead, hh, e1, e2]
  · intro h1 h2
    subst h1
    rw [h2]
    decide

/-- Concrete instance of C1: head in cell (31, 12) heading RIGHT wraps to
column 0. -/
theorem advance_wraps_witness :
    ((c1snake.move).get_head_position =
      (((31 + c1snake.direction.1) % GRID_WIDTH) * GRID_SIZE,
       ((12 + c1snake.direction.2) % GRID_HEIGHT) * GRID_SIZE) ∧
     0 ≤ (31 + c1snake.direction.1) % GRID_WIDTH ∧
     (31 + c1snake.direction.1) % GRID_WIDTH < GRID_WIDTH ∧
     0 ≤ (12 + c1snake.direction.2) % GRID_HEIGHT ∧
     (12 + c1snake.direction.2) % GRID_HEIGHT < GRID_HEIGHT ∧
     ((31 : Int) = GRID_WIDTH - 1 → c1snake.direction = RIGHT →
       ((31 : Int) + c1snake.direction.1) % GRID_WIDTH = 0)) :=
  advance_wraps c1snake 31 12 (by decide) (by decide) (by decide)

/-- Claim C2: `Snake.move` inserts the new head at the front of the body; when
the body length then exceeds the target length it removes exactly the last
element and records it in `last`, otherwise it removes nothing and `last` is
`none`; in the non-growth case the body length is unchanged. -/
theorem move_body_shift (s : Snake) (hne : s.positions ≠ []) :
    (s.move).positions.headI = s.newHead ∧
    (s.positions.length + 1 > s.length →
      (s.move).positions = s.newHead :: s.positions.dropLast ∧
      (s.move).last = s.positions.getLast? ∧
      (s.move).positions.length = s.positions.length) ∧
    (¬ s.positions.length + 1 > s.length →
      (s.move).positions = s.newHead :: s.positions ∧
      (s.move).last = none ∧
      (s.move).positions.length = s.positions.length + 1) := by
  refine ⟨move_head s hne, ?_, ?_⟩
  · intro hc
    obtain ⟨h1, h2⟩ := move_pop s hne hc
    refine ⟨h1, h2, ?_⟩
    rw [h1]
    have hpos := List.length_pos.mpr hne
    simp only [List.length_cons, List.length_dropLast]
    omega
  · intro hc
    obtain ⟨h1, h2⟩ := move_nopop s hc
    exact ⟨h1, h2, by rw [h1]; simp⟩

/-- Concrete instance of C2, the spec scenario: body cells (5,5),(4,5),(3,5)
heading RIGHT become (6,5),(5,5),(4,5) with (3,5) vacated and length kept. -/
theorem move_body_shift_witness :
    (c2snake.move).positions = [cellToPix (6, 5), cellToPix (5, 5), cellToPix (4, 5)] ∧
    (c2snake.move).last = some (cellToPix (3, 5)) ∧
    (c2snake.move).positions.length = c2snake.positions.length := by
  have h := (move_body_shift c2snake (by decide)).2.1 (by decide)
  refine ⟨?_, ?_, h.2.2⟩
  · rw [h.1]; decide
  · rw [h.2.1]; decide

/-- Claim C3: in every state `main` can reach, the apple's position is not a
member of the snake's body: `randomize_position` is always called with the
nonempty current body as the forbidden list, and its break condition forces
the sampled cell outside that list. -/
theorem apple_not_in_body (g : GameState) (hg : Reachable g) :
    g.apple ∉ g.snake.positions :=
  (reachable_inv g hg).apple_free

/-- Concrete instance of C3 at a reachable initial state. -/
theorem apple_not_in_body_witness : stateA.apple ∉ stateA.snake.positions :=
  apple_not_in_body stateA reach_stateA

theorem opposite_ne_self (d x : Cell) (hd : d ∈ keyDirs)
    (hx : oppositeDirections d = some x) : d ≠ x := by
  have hd4 : d = UP ∨ d = DOWN ∨ d = LEFT ∨ d = RIGHT := by
    simpa [keyDirs] using hd
  rcases hd4 with rfl | rfl | rfl | rfl
  · have he : x = DOWN := Option.some_inj.mp (hx.symm.trans (by decide))
    subst he; decide
  · have he : x = UP := Option.some_inj.mp (hx.symm.trans (by decide))
    subst he; decide
  · have he : x = RIGHT := Option.some_inj.mp (hx.symm.trans (by decide))
    subst he; decide
  · have he : x = LEFT := Option.some_inj.mp (hx.symm.trans (by decide))
    subst he; decide

/-- Claim C4 is refuted on the code: from the reachable initial state (heading
RIGHT at the previous tick), the two key events UP then LEFT arriving within
one frame leave the heading LEFT — exactly the opposite of RIGHT — and the
tick completes with the snake moving LEFT. -/
theorem reversal_one_tick_cex :
    Reachable stateA ∧ tickRel [UP, LEFT] stateA stateB ∧
    stateA.snake.direction = RIGHT ∧
    oppositeDirections RIGHT = some LEFT ∧
    (applyInputs stateA.snake [UP, LEFT]).direction = LEFT :=
  ⟨reach_stateA, tick_AB, rfl, by decide, by decide⟩

/-- Claim C4 (amended): when at most one heading-change request arrives
between consecutive ticks, the heading after input processing is never the
exact opposite of the heading at the previous tick. -/
theorem no_reversal_single_request (g : GameState) (hg : Reachable g)
    (inputs : List Cell) (hlen : inputs.length ≤ 1) (x : Cell)
    (hx : oppositeDirections g.snake.direction = some x) :
    (applyInputs g.snake inputs).direction ≠ x := by
  have hcur : g.snake.direction ≠ x :=
    opposite_ne_self _ x (reachable_inv g hg).dir_mem hx
  cases inputs with
  | nil => exact hcur
  | cons a t =>
      cases t with
      | nil => exact update_direction_ne_opposite g.snake a x hx hcur
      | cons b u => simp at hlen

/-- Concrete instance of the amended C4: a lone LEFT request while heading
RIGHT does not produce a LEFT heading. -/
theorem no_reversal_single_request_witness :
    (applyInputs stateA.snake [LEFT]).direction ≠ LEFT :=
  no_reversal_single_request stateA reach_stateA [LEFT] (by decide) LEFT (by decide)

/-- Claim C5: for every current heading and one requested heading,
`update_direction` keeps the heading unchanged when the request equals
`opposite_directions.get` of the current heading (the request is discarded,
nothing is queued), and otherwise replaces the heading by the request. -/
theorem update_direction_reversal_rule (s : Snake) (d : Cell) :
    (oppositeDirections s.direction = some d →
      (s.update_direction (some d)).direction = s.direction) ∧
    (oppositeDirections s.direction ≠ some d →
      (s.update_direction (some d)).direction = d) := by
  constructor
  · intro h
    simp only [Snake.update_direction]
    rw [if_neg (not_not_intro h)]
  · intro h
    simp only [Snake.update_direction]
    rw [if_pos h]

/-- Concrete instance of C5: heading RIGHT discards a LEFT request and accepts
an UP request. -/
theorem update_direction_reversal_rule_witness :
    (Snake.update_direction ⟨centerPosition, 1, [centerPosition], RIGHT, none⟩
      (some LEFT)).direction = RIGHT ∧
    (Snake.update_direction ⟨centerPosition, 1, [centerPosition], RIGHT, none⟩
      (some UP)).direction = UP := by
  constructor
  · exact (update_direction_reversal_rule _ LEFT).1 (by decide)
  · exact (update_direction_reversal_rule _ UP).2 (by decide)

/-- Claim C6: on every tick whose new head equals the apple's position, the
snake's target length grows by exactly 1 and the apple moves to a cell outside
the new body (in particular the apple's position changes). -/
theorem consumption_grows (g : GameState) (inputs : List Cell) (g' : GameState)
    (hg : Reachable g) (h : tickRel inputs g g')
    (hc : (movedSnake g inputs).get_head_position = g.apple) :
    g'.snake.length = g.snake.length + 1 ∧
    g'.apple ∉ g'.snake.positions ∧
    g'.apple ≠ g.apple := by
  obtain ⟨hin, hbr⟩ := h
  rw [if_pos hc] at hbr
  obtain ⟨p, ⟨hpb, hpbc⟩, rfl⟩ := hbr
  have hne : (movedSnake g inputs).positions ≠ [] :=
    movedSnake_ne_nil g inputs (reachable_inv g hg).body_ne
  have hfree : p ∉ (movedSnake g inputs).positions :=
    breakCond_not_mem _ _ hne hpbc
  refine ⟨?_, hfree, ?_⟩
  · show (movedSnake g inputs).length + 1 = g.snake.length + 1
    rw [(movedSnake_fields g inputs).2]
  · intro hpa
    apply hfree
    have hpa2 : p = g.apple := hpa
    rw [hpa2, ← hc]
    exact headI_mem_self _ hne

/-- Concrete instance of C6: the first tick from `stateC` eats the apple. -/
theorem consumption_grows_witness :
    stateD.snake.length = stateC.snake.length + 1 ∧
    stateD.apple ∉ stateD.snake.positions ∧
    stateD.apple ≠ stateC.apple :=
  consumption_grows stateC [] stateD reach_stateC tick_CD (by decide)

/-- Claim C7: on every tick in which the moved head misses the apple and hits
the body's tail part, the reset leaves the snake with body `[centerCell]`,
target length 1, heading RIGHT, and no buffered cell in `last`. -/
theorem collision_resets (g : GameState) (inputs : List Cell) (g' : GameState)
    (hg : Reachable g) (h : tickRel inputs g g')
    (hna : (movedSnake g inputs).get_head_position ≠ g.apple)
    (hcol : (movedSnake g inputs).get_head_position ∈ (movedSnake g inputs).positions.tail) :
    g'.snake.positions = [centerPosition] ∧
    g'.snake.length = 1 ∧
    g'.snake.direction = RIGHT ∧
    g'.snake.last = none := by
  obtain ⟨hin, hbr⟩ := h
  rw [if_neg hna, if_pos hcol] at hbr
  obtain ⟨p, hp, rfl⟩ := hbr
  have hcenter : (movedSnake g inputs).position = centerPosition :=
    (movedSnake_fields g inputs).1.trans (reachable_inv g hg).pos_center
  refine ⟨?_, rfl, rfl, rfl⟩
  show [(movedSnake g inputs).position] = [centerPosition]
  rw [hcenter]

/-- Concrete instance of C7: the reversal tick from `stateF` self-collides and
resets the snake to the center cell. -/
theorem collision_resets_witness :
    stateG.snake.positions = [centerPosition] ∧
    stateG.snake.length = 1 ∧
    stateG.snake.direction = RIGHT ∧
    stateG.snake.last = none :=
  collision_resets stateF [UP, LEFT] stateG reach_stateF tick_FG (by decide) (by decide)

/-- Claim C8: consumption and self-collision resolve mutually exclusively with
consumption first: when the moved head equals the apple, the tick grows the
snake, keeps the moved body, and re-places the apple — no reset happens; the
reset branch can only fire when the moved head differs from the apple. -/
theorem tick_priority (g : GameState) (inputs : List Cell) (g' : GameState)
    (h : tickRel inputs g g') :
    ((movedSnake g inputs).get_head_position = g.apple →
      g'.snake.positions = (movedSnake g inputs).positions ∧
      g'.snake.direction = (movedSnake g inputs).direction ∧
      g'.snake.length = (movedSnake g inputs).length + 1 ∧
      randomizeSpec (movedSnake g inputs).positions g'.apple) ∧
    ((movedSnake g inputs).get_head_position ≠ g.apple →
      (movedSnake g inputs).get_head_position ∈ (movedSnake g inputs).positions.tail →
      g'.snake = (movedSnake g inputs).reset ∧
      randomizeSpec ((movedSnake g inputs).reset).positions g'.apple) := by
  obtain ⟨hin, hbr⟩ := h
  constructor
  · intro hc
    rw [if_pos hc] at hbr
    obtain ⟨p, hp, rfl⟩ := hbr
    exact ⟨rfl, rfl, rfl, hp⟩
  · intro hna hcol
    rw [if_neg hna, if_pos hcol] at hbr
    obtain ⟨p, hp, rfl⟩ := hbr
    exact ⟨rfl, hp⟩

/-- Concrete instance of C8: the consuming tick from `stateC` grows the snake
and keeps the moved body — no reset. -/
theorem tick_priority_witness :
    stateD.snake.positions = (movedSnake stateC []).positions ∧
    stateD.snake.direction = (movedSnake stateC []).direction ∧
    stateD.snake.length = (movedSnake stateC []).length + 1 ∧
    randomizeSpec (movedSnake stateC []).positions stateD.apple :=
  (tick_priority stateC [] stateD tick_CD).1 (by decide)

theorem cellOfPair_inj : Function.Injective cellOfPair := by
  rintro ⟨a, b⟩ ⟨c, d⟩ h
  simp only [cellOfPair, Prod.mk.injEq] at h
  obtain ⟨h1, h2⟩ := h
  have e1 : (a : Int) = c := mul_right_cancel₀ (by decide) h1
  have e2 : (b : Int) = d := mul_right_cancel₀ (by decide) h2
  have ea : a = c := by exact_mod_cast e1
  have eb : b = d := by exact_mod_cast e2
  simp [ea, eb]

theorem boardFinset_card : boardFinset.card = 768 := by
  unfold boardFinset
  rw [Finset.card_image_of_injective _ cellOfPair_inj, Finset.card_product]
  simp [Finset.card_range]

theorem exists_free_cell (occupied : List Cell)
    (h : occupied.toFinset.card < (GRID_WIDTH * GRID_HEIGHT).toNat) :
    ∃ c ∈ boardFinset, c ∉ occupied := by
  have hcard : occupied.toFinset.card < boardFinset.card := by
    rw [boardFinset_card]
    exact lt_of_lt_of_le h (by decide)
  by_contra hc
  push_neg at hc
  have hsub : boardFinset ⊆ occupied.toFinset :=
    fun x hx => List.mem_toFinset.mpr (hc x hx)
  exact absurd (Finset.card_le_card hsub) (by omega)

theorem randomizeRun_finds (occupied : List Cell) (samples : List Cell)
    (h : ∃ p ∈ samples, breakCond occupied p = true) :
    ∃ r, randomizeRun occupied samples = some r ∧ breakCond occupied r = true := by
  induction samples with
  | nil => simp at h
  | cons a t ih =>
      unfold randomizeRun
      by_cases ha : breakCond occupied a = true
      · rw [if_pos ha]
        exact ⟨a, rfl, ha⟩
      · rw [if_neg ha]
        apply ih
        obtain ⟨p, hp, hbp⟩ := h
        rcases List.mem_cons.mp hp with rfl | hpt
        · exact absurd hbp ha
        · exact ⟨p, hpt, hbp⟩

theorem sampleStream_exhaustive : ∀ c ∈ boardFinset, ∃ n, sampleStream n = c := by
  intro c hc
  unfold boardFinset at hc
  obtain ⟨p, hp, rfl⟩ := Finset.mem_image.mp hc
  obtain ⟨h1, h2⟩ := Finset.mem_product.mp hp
  rw [Finset.mem_range] at h1 h2
  refine ⟨p.1 + 32 * p.2, ?_⟩
  unfold sampleStream
  have e1 : (p.1 + 32 * p.2) % 32 = p.1 := by omega
  have e2 : (p.1 + 32 * p.2) / 32 % 24 = p.2 := by omega
  rw [e1, e2]

/-- Claim C9: whenever the forbidden list covers fewer than
`GRID_WIDTH * GRID_HEIGHT` distinct cells, the rejection-sampling loop of
`randomize_position` terminates along any sample stream that eventually draws
every board cell: some finite prefix of samples yields a result satisfying
the break condition. -/
theorem randomize_terminates (occupied : List Cell)
    (hcard : occupied.toFinset.card < (GRID_WIDTH * GRID_HEIGHT).toNat)
    (s : Nat → Cell) (hs : ∀ c ∈ boardFinset, ∃ n, s n = c) :
    ∃ n r, randomizeRun occupied ((List.range n).map s) = some r ∧
      breakCond occupied r = true := by
  obtain ⟨c, hcb, hco⟩ := exists_free_cell occupied hcard
  obtain ⟨n, hn⟩ := hs c hcb
  refine ⟨n + 1, randomizeRun_finds occupied _ ⟨c, ?_, breakCond_of_not_mem _ _ hco⟩⟩
  rw [← hn]
  exact List.mem_map_of_mem s (List.mem_range.mpr (Nat.lt_succ_self n))

/-- Concrete instance of C9: with the single-cell body as forbidden list, the
loop terminates along the exhaustive sample stream. -/
theorem randomize_terminates_witness :
    ∃ n r, randomizeRun [(320, 240)] ((List.range n).map sampleStream) = some r ∧
      breakCond [(320, 240)] r = true :=
  randomize_terminates [(320, 240)] (by decide) sampleStream sampleStream_exhaustive

/-- Claim C10: in every reachable state, every body cell and the apple's
position are grid-aligned on-screen pixel pairs: each coordinate is a multiple
of `GRID_SIZE`, the x-coordinate lies in `[0, SCREEN_WIDTH)` and the
y-coordinate in `[0, SCREEN_HEIGHT)`. -/
theorem grid_aligned (g : GameState) (hg : Reachable g) :
    (∀ c ∈ g.snake.positions, isBoardCell c = true) ∧
    isBoardCell g.apple = true :=
  ⟨(reachable_inv g hg).body_cells, (reachable_inv g hg).apple_cell⟩

/-- Concrete instance of C10 at a reachable initial state. -/
theorem grid_aligned_witness :
    (∀ c ∈ stateA.snake.positions, isBoardCell c = true) ∧
    isBoardCell stateA.apple = true :=
  grid_aligned stateA reach_stateA
